import Mathlib

/-!
Shallow embedding of `optuna/integration/mlflow.py` (the `MLflowCallback`
class and its helper `_check_mlflow_availability`) and proofs about it.

Modelling conventions:
* Python `float` values carried by a trial are modelled by `PFloat`: either a
  finite value (a rational, since the code performs no arithmetic on them)
  or the NaN sentinel produced by `float("nan")`.
* Opaque Python objects that the code only ever passes through verbatim
  (parameter values, user-attribute values) are modelled by `PyVal`: either a
  string or an opaque object identified by a numeral.
* Objects whose only use in the code is `str(x)` (datetimes, the trial state,
  the study direction, distribution descriptors) are modelled by their string
  rendering; a nullable datetime is `Option String`, and `str(None)` renders
  as `"None"`.
* Python `dict` is modelled by an association list with Python's insertion
  semantics: `dictSet` overwrites in place when the key exists and appends
  otherwise; `dictUpdate` is `dict.update`, a left fold of `dictSet`.
* The mlflow client is modelled by a `Client` record of fault oracles: each
  outbound call either succeeds (`none`) or raises a given error (`some e`).
  `MLflowCallback.call` threads control through them exactly as the Python
  control flow does, recording every issued call in a trace; the `with
  mlflow.start_run(...)` statement is embedded with Python's context-manager
  semantics: once the run is opened, `end_run` is issued on every exit path
  and a body exception propagates unmodified.
-/

/-- A Python float as used by this code: a finite value or `float("nan")`.
The code never computes with these, it only passes them through. -/
inductive PFloat where
  | nan : PFloat
  | val : ℚ → PFloat
  deriving DecidableEq, Repr

/-- An opaque Python value: a string, or some other object identified by a
numeral (the code passes these through verbatim, so identity is all that
matters). -/
inductive PyVal where
  | str : String → PyVal
  | obj : Nat → PyVal
  deriving DecidableEq, Repr

/-- Is this value a Python string? -/
def PyVal.isStr : PyVal → Bool
  | .str _ => true
  | .obj _ => false

/-- `str(x)` for a nullable object modelled by its rendering: `str(None)`
is the literal `"None"`. -/
def pyStrOfOption : Option String → String
  | some s => s
  | none => "None"

/-- Python `d[k] = v` on an association list: overwrite in place if the key
is present, append otherwise. -/
def dictSet {α : Type} : List (String × α) → String → α → List (String × α)
  | [], k, v => [(k, v)]
  | (ek, ev) :: rest, k, v =>
    if ek = k then (ek, v) :: rest else (ek, ev) :: dictSet rest k v

/-- Python `d[k]`: value at the first (unique, for dicts) occurrence of `k`. -/
def dictGet {α : Type} : List (String × α) → String → Option α
  | [], _ => none
  | (ek, ev) :: rest, k => if ek = k then some ev else dictGet rest k

/-- Python `d.update(src)`: fold `dictSet` over the entries of `src`. -/
def dictUpdate {α : Type} (d src : List (String × α)) : List (String × α) :=
  src.foldl (fun acc kv => dictSet acc kv.1 kv.2) d

/-- The value bound to `k` by the LAST entry of the list with that key
(what a sequence of `d[k] = v` insertions leaves behind). -/
def lastAssoc {α : Type} : List (String × α) → String → Option α
  | [], _ => none
  | (ek, ev) :: rest, k =>
    match lastAssoc rest k with
    | some v => some v
    | none => if ek = k then some ev else none

/-- `Option` fallback: the first operand if present, else the second. -/
def optOr {α : Type} : Option α → Option α → Option α
  | some x, _ => some x
  | none, b => b

/-- `optuna.study.Study` as read by this code: its name and the string
rendering of `str(study.direction)`. -/
structure Study where
  study_name : String
  direction : String
  deriving DecidableEq, Repr

/-- `optuna.structs.FrozenTrial` as read by this code. -/
structure FrozenTrial where
  number : Nat
  value : Option PFloat
  datetime_start : Option String
  datetime_complete : Option String
  state : String
  params : List (String × PyVal)
  distributions : List (String × String)
  user_attrs : List (String × PyVal)
  deriving DecidableEq, Repr

/-- The callback object: exactly the attributes `__init__` stores
(`self._tracking_uri`, `self._experiment`) and nothing else. -/
structure MLflowCallback where
  tracking_uri : Option String
  experiment : Option String
  deriving DecidableEq, Repr

/-- One outbound call to the mlflow client, with its arguments. -/
inductive MEvent where
  | set_tracking_uri : String → MEvent
  | set_experiment : String → MEvent
  | start_run : Nat → MEvent
  | log_metric : String → PFloat → MEvent
  | log_params : List (String × PyVal) → MEvent
  | set_tags : List (String × PyVal) → MEvent
  | end_run : MEvent
  deriving DecidableEq, Repr

/-- A Python exception raised by the mlflow client, carried opaquely. -/
abbrev PyErr := String

/-- Fault oracle for the mlflow client: for each outbound call, `none`
means the call returns normally and `some e` means it raises `e`. -/
structure Client where
  fail_set_tracking_uri : String → Option PyErr
  fail_set_experiment : String → Option PyErr
  fail_start_run : Nat → Option PyErr
  fail_log_metric : String → PFloat → Option PyErr
  fail_log_params : List (String × PyVal) → Option PyErr
  fail_set_tags : List (String × PyVal) → Option PyErr

/-- The client on which every call succeeds. -/
def okClient : Client where
  fail_set_tracking_uri := fun _ => none
  fail_set_experiment := fun _ => none
  fail_start_run := fun _ => none
  fail_log_metric := fun _ _ => none
  fail_log_params := fun _ => none
  fail_set_tags := fun _ => none

/-- `self._experiment if self._experiment is not None else study.study_name`:
the experiment name passed to `mlflow.set_experiment`. -/
def experimentName (self : MLflowCallback) (study : Study) : String :=
  match self.experiment with
  | some name => name
  | none => study.study_name

/-- `trial.value if trial.value is not None else float("nan")`. -/
def metricValue (trial : FrozenTrial) : PFloat :=
  match trial.value with
  | some v => v
  | none => PFloat.nan

/-- The five reserved tag assignments, in source order:
`tags["number"] = str(trial.number)` through
`tags["direction"] = str(study.direction)`, starting from the empty dict. -/
def reservedTags (study : Study) (trial : FrozenTrial) : List (String × PyVal) :=
  let tags : List (String × PyVal) := []
  let tags := dictSet tags "number" (PyVal.str (toString trial.number))
  let tags := dictSet tags "datetime_start"
    (PyVal.str (pyStrOfOption trial.datetime_start))
  let tags := dictSet tags "datetime_complete"
    (PyVal.str (pyStrOfOption trial.datetime_complete))
  let tags := dictSet tags "state" (PyVal.str trial.state)
  dictSet tags "direction" (PyVal.str study.direction)

/-- The entries of the dict comprehension
`{(k + "_distribution"): str(v) for (k, v) in trial.distributions.items()}`
before dict construction. -/
def distributionEntries (trial : FrozenTrial) : List (String × PyVal) :=
  trial.distributions.map (fun kv => (kv.1 ++ "_distribution", PyVal.str kv.2))

/-- The `distributions` dict built by the comprehension. -/
def distributionTags (trial : FrozenTrial) : List (String × PyVal) :=
  dictUpdate [] (distributionEntries trial)

/-- The full tag dict submitted to `mlflow.set_tags`: reserved entries, then
`tags.update(trial.user_attrs)`, then `tags.update(distributions)`. -/
def buildTags (study : Study) (trial : FrozenTrial) : List (String × PyVal) :=
  dictUpdate (dictUpdate (reservedTags study trial) trial.user_attrs)
    (distributionTags trial)

/-- `MLflowCallback.__call__(self, study, trial)` against client `c`:
returns the trace of issued mlflow calls and the propagated exception, if
any.  Control flow mirrors the source line by line; the `with` block is
embedded with context-manager semantics (after a successful `start_run`,
`end_run` is issued on every exit path and a body exception propagates
unmodified). -/
def MLflowCallback.call (c : Client) (self : MLflowCallback) (study : Study)
    (trial : FrozenTrial) : List MEvent × Option PyErr :=
  let pre : List MEvent × Option PyErr :=
    match self.tracking_uri with
    | some uri => ([MEvent.set_tracking_uri uri], c.fail_set_tracking_uri uri)
    | none => ([], none)
  match pre with
  | (tr, some e) => (tr, some e)
  | (tr, none) =>
    let expName := experimentName self study
    let tr := tr ++ [MEvent.set_experiment expName]
    match c.fail_set_experiment expName with
    | some e => (tr, some e)
    | none =>
      let tr := tr ++ [MEvent.start_run trial.number]
      match c.fail_start_run trial.number with
      | some e => (tr, some e)
      | none =>
        let v := metricValue trial
        let tr := tr ++ [MEvent.log_metric "value" v]
        match c.fail_log_metric "value" v with
        | some e => (tr ++ [MEvent.end_run], some e)
        | none =>
          let tr := tr ++ [MEvent.log_params trial.params]
          match c.fail_log_params trial.params with
          | some e => (tr ++ [MEvent.end_run], some e)
          | none =>
            let tags := buildTags study trial
            let tr := tr ++ [MEvent.set_tags tags]
            match c.fail_set_tags tags with
            | some e => (tr ++ [MEvent.end_run], some e)
            | none => (tr ++ [MEvent.end_run], none)

/-- The trace of a fully successful invocation. -/
def callTrace (self : MLflowCallback) (study : Study) (trial : FrozenTrial) :
    List MEvent :=
  (MLflowCallback.call okClient self study trial).1

/-- Scan a trace keeping track of whether a run is open; `true` iff every
logging call (`log_metric`, `log_params`, `set_tags`) occurs while open. -/
def wfRunScope : List MEvent → Bool → Bool
  | [], _ => true
  | MEvent.start_run _ :: rest, _ => wfRunScope rest true
  | MEvent.end_run :: rest, _ => wfRunScope rest false
  | MEvent.log_metric _ _ :: rest, opened => opened && wfRunScope rest opened
  | MEvent.log_params _ :: rest, opened => opened && wfRunScope rest opened
  | MEvent.set_tags _ :: rest, opened => opened && wfRunScope rest opened
  | MEvent.set_tracking_uri _ :: rest, opened => wfRunScope rest opened
  | MEvent.set_experiment _ :: rest, opened => wfRunScope rest opened

/-- The run was opened during this invocation: the `start_run` call was
issued and did not raise. -/
def runOpened (c : Client) (self : MLflowCallback) (study : Study)
    (trial : FrozenTrial) : Bool :=
  decide (MEvent.start_run trial.number ∈ (MLflowCallback.call c self study trial).1)
    && (c.fail_start_run trial.number).isNone

/-- The hint between backquotes in the availability error message. -/
def installHint : String := "$ pip install mlflow"

/-- The message of the `ImportError` raised by `_check_mlflow_availability`,
with `str(_import_error)` spliced in; split at its concatenation points. -/
def availabilityErrorMessage (importError : String) : String :=
  "MLflow is not available. Please install MLflow to use this feature. It can be installed by executing `"
    ++ installHint
    ++ "`. For further information, please refer to the installation guide of MLflow. (The actual import error is as follows: "
    ++ importError ++ ")"

/-- `_check_mlflow_availability()`: raises `ImportError` with the message
above when the module-level `_available` flag is false. -/
def check_mlflow_availability (available : Bool) (importError : String) :
    Except String Unit :=
  if available then Except.ok () else
    Except.error (availabilityErrorMessage importError)

/-- `MLflowCallback.__init__`: runs the availability check eagerly, then
stores the two configuration attributes.  The call embedding
(`MLflowCallback.call`) takes no availability input at all, so no later
check can occur. -/
def MLflowCallback.init (available : Bool) (importError : String)
    (tracking_uri : Option String) (experiment : Option String) :
    Except String MLflowCallback :=
  match check_mlflow_availability available importError with
  | Except.error e => Except.error e
  | Except.ok _ => Except.ok { tracking_uri := tracking_uri, experiment := experiment }

/-- Did construction succeed? -/
def initOk (r : Except String MLflowCallback) : Bool :=
  match r with
  | Except.ok _ => true
  | Except.error _ => false

/-- The keyword parameters of `MLflowCallback.__init__` in the source:
`def __init__(self, tracking_uri=None, experiment=None)`. -/
def initKwargNames : List String := ["tracking_uri", "experiment"]

/-- The keyword arguments used in the construction call of the class's own
docstring example: `MLflowCallback(tracking_uri=..., metric_name=...)`. -/
def docstringCallKwargNames : List String := ["tracking_uri", "metric_name"]

/-- Python call semantics for keyword arguments: the call binds (rather
than raising `TypeError`) iff every given keyword names a parameter. -/
def kwargsAccepted (accepted given : List String) : Bool :=
  given.all (fun k => accepted.contains k)

/-- The metric name of a `log_metric` event, if the event is one. -/
def metricEventName : MEvent → Option String
  | MEvent.log_metric name _ => some name
  | _ => none

/-- The experiment name of a `set_experiment` event, if the event is one. -/
def expEventName : MEvent → Option String
  | MEvent.set_experiment name => some name
  | _ => none

/-- Is this event a `log_metric` call? -/
def isLogMetric : MEvent → Bool
  | MEvent.log_metric _ _ => true
  | _ => false

/-- The mlflow client's ambient (process-global) state: the configured
endpoint, the active experiment, and the active run, each mutated by the
corresponding call. -/
structure MlflowGlobal where
  active_uri : Option String
  active_experiment : Option String
  active_run : Option Nat
  deriving DecidableEq, Repr

/-- Effect of one outbound call on the client's ambient state (logging
calls go to the remote service and leave the ambient state unchanged). -/
def applyEvent (g : MlflowGlobal) : MEvent → MlflowGlobal
  | MEvent.set_tracking_uri uri => { g with active_uri := some uri }
  | MEvent.set_experiment name => { g with active_experiment := some name }
  | MEvent.start_run n => { g with active_run := some n }
  | MEvent.end_run => { g with active_run := none }
  | MEvent.log_metric _ _ => g
  | MEvent.log_params _ => g
  | MEvent.set_tags _ => g

/-- Everything an invocation can observe or mutate: the client's ambient
state, the callback object itself, and the two inputs. -/
structure World where
  globalState : MlflowGlobal
  cb : MLflowCallback
  study : Study
  trial : FrozenTrial
  deriving DecidableEq, Repr

/-- One invocation of the callback as a state transformer on `World`: the
issued calls update the ambient client state; nothing in the body assigns
to `self`, `study` or `trial`. -/
def callStep (c : Client) (w : World) : World × List MEvent × Option PyErr :=
  let out := MLflowCallback.call c w.cb w.study w.trial
  ({ w with globalState := out.1.foldl applyEvent w.globalState }, out)

/-- The reserved tag keys, in the order the source assigns them. -/
def reservedTagKeys : List String :=
  ["number", "datetime_start", "datetime_complete", "state", "direction"]

/-- A concrete study for evaluating the embedding. -/
def sampleStudy : Study :=
  { study_name := "my_study", direction := "StudyDirection.MINIMIZE" }

/-- A concrete completed trial with value `1.5`. -/
def sampleTrial : FrozenTrial :=
  { number := 7
    value := some (PFloat.val (3 / 2))
    datetime_start := some "2020-05-01 10:00:00.000000"
    datetime_complete := some "2020-05-01 10:00:05.000000"
    state := "TrialState.COMPLETE"
    params := [("x", PyVal.str "1.3")]
    distributions := [("x", "UniformDistribution(high=10, low=-10)")]
    user_attrs := [("memo", PyVal.str "ok")] }

/-- A concrete failed trial whose value is `None`. -/
def trialNoValue : FrozenTrial :=
  { sampleTrial with
    value := none
    state := "TrialState.FAIL"
    datetime_complete := none }

/-- A trial whose user attributes collide with a reserved tag key and with a
distribution-derived key. -/
def collisionTrial : FrozenTrial :=
  { sampleTrial with
    user_attrs := [("state", PyVal.str "custom"), ("x_distribution", PyVal.obj 0)]
    distributions := [("x", "CategoricalDistribution(choices=(1, 2))")] }

/-- A callback configured with a tracking URI and no experiment name. -/
def sampleCb : MLflowCallback :=
  { tracking_uri := some "file:/tmp/mlruns", experiment := none }

/-- A callback configured with an experiment name and no tracking URI. -/
def expCb : MLflowCallback :=
  { tracking_uri := none, experiment := some "X" }

/-- A concrete world for the frame theorem. -/
def sampleWorld : World :=
  { globalState := { active_uri := none, active_experiment := none, active_run := none }
    cb := sampleCb
    study := sampleStudy
    trial := sampleTrial }

/-- A client on which `log_params` raises a remote-service error. -/
def failingClient : Client :=
  { okClient with fail_log_params := fun _ => some "RestException: INTERNAL_ERROR" }

section DictLemmas

variable {α : Type}

theorem optOr_none (x : Option α) : optOr x none = x := by
  cases x <;> rfl

theorem dictGet_dictSet (d : List (String × α)) (k : String) (v : α)
    (q : String) :
    dictGet (dictSet d k v) q = if k = q then some v else dictGet d q := by
  induction d with
  | nil => simp [dictSet, dictGet]
  | cons hd rest ih =>
    obtain ⟨ek, ev⟩ := hd
    by_cases hek : ek = k
    · subst hek
      simp only [dictSet, if_pos rfl, dictGet]
      by_cases hq : ek = q
      · subst hq; simp
      · simp [hq, dictGet]
    · simp only [dictSet, if_neg hek, dictGet]
      by_cases hq : ek = q
      · subst hq
        have hne : ¬ k = ek := fun h => hek h.symm
        simp [hne]
      · simp [hq, ih]

theorem dictGet_dictUpdate (d src : List (String × α)) (q : String) :
    dictGet (dictUpdate d src) q = optOr (lastAssoc src q) (dictGet d q) := by
  induction src generalizing d with
  | nil => simp [dictUpdate, lastAssoc, optOr]
  | cons hd rest ih =>
    obtain ⟨ek, ev⟩ := hd
    show dictGet (dictUpdate (dictSet d ek ev) rest) q = _
    rw [ih]
    simp only [lastAssoc, dictGet_dictSet]
    rcases lastAssoc rest q with _ | v
    · by_cases hq : ek = q <;> simp [hq, optOr]
    · simp [optOr]

theorem lastAssoc_eq_none_of_not_mem (src : List (String × α)) (q : String)
    (h : q ∉ src.map Prod.fst) : lastAssoc src q = none := by
  induction src with
  | nil => rfl
  | cons hd rest ih =>
    obtain ⟨ek, ev⟩ := hd
    simp only [List.map_cons, List.mem_cons, not_or] at h
    have hne : ¬ ek = q := fun hk => h.1 hk.symm
    simp [lastAssoc, ih h.2, hne]

theorem lastAssoc_eq_some_of_nodup (src : List (String × α)) (q : String)
    (v : α) (hnd : (src.map Prod.fst).Nodup) (hm : (q, v) ∈ src) :
    lastAssoc src q = some v := by
  induction src with
  | nil => cases hm
  | cons hd rest ih =>
    obtain ⟨ek, ev⟩ := hd
    simp only [List.map_cons, List.nodup_cons] at hnd
    rcases List.mem_cons.mp hm with heq | hmem
    · have hq : q = ek := (Prod.ext_iff.mp heq).1
      have hv : v = ev := (Prod.ext_iff.mp heq).2
      subst hq; subst hv
      simp [lastAssoc, lastAssoc_eq_none_of_not_mem rest q hnd.1]
    · simp [lastAssoc, ih hnd.2 hmem]

theorem lastAssoc_eq_dictGet_of_nodup (src : List (String × α)) (q : String)
    (hnd : (src.map Prod.fst).Nodup) : lastAssoc src q = dictGet src q := by
  induction src with
  | nil => rfl
  | cons hd rest ih =>
    obtain ⟨ek, ev⟩ := hd
    simp only [List.map_cons, List.nodup_cons] at hnd
    by_cases hq : ek = q
    · subst hq
      simp [lastAssoc, dictGet, lastAssoc_eq_none_of_not_mem rest ek hnd.1]
    · simp only [lastAssoc, dictGet, if_neg hq, ih hnd.2]
      rcases dictGet rest q with _ | v <;> simp [hq]

theorem mem_keys_dictSet_self (d : List (String × α)) (k : String) (v : α) :
    k ∈ (dictSet d k v).map Prod.fst := by
  induction d with
  | nil => simp [dictSet]
  | cons hd rest ih =>
    obtain ⟨ek, ev⟩ := hd
    by_cases hek : ek = k
    · subst hek; simp [dictSet]
    · simp [dictSet, hek, ih]

theorem mem_keys_dictSet_of_mem (d : List (String × α)) (k : String) (v : α)
    (q : String) (h : q ∈ d.map Prod.fst) :
    q ∈ (dictSet d k v).map Prod.fst := by
  induction d with
  | nil => cases h
  | cons hd rest ih =>
    obtain ⟨ek, ev⟩ := hd
    simp only [List.map_cons, List.mem_cons] at h
    by_cases hek : ek = k
    · subst hek
      rcases h with h | h <;> simp [dictSet, h]
    · rcases h with h | h
      · simp [dictSet, hek, h]
      · simp [dictSet, hek, ih h]

theorem mem_keys_dictSet_cases (d : List (String × α)) (k : String) (v : α)
    (q : String) (h : q ∈ (dictSet d k v).map Prod.fst) :
    q ∈ d.map Prod.fst ∨ q = k := by
  induction d with
  | nil =>
    simp only [dictSet, List.map_cons, List.map_nil] at h
    exact Or.inr (List.mem_singleton.mp h)
  | cons hd rest ih =>
    obtain ⟨ek, ev⟩ := hd
    by_cases hek : ek = k
    · simp only [dictSet, if_pos hek, List.map_cons] at h
      rcases List.mem_cons.mp h with h | h
      · exact Or.inl (List.mem_cons.mpr (Or.inl h))
      · exact Or.inl (List.mem_cons.mpr (Or.inr h))
    · simp only [dictSet, if_neg hek, List.map_cons] at h
      rcases List.mem_cons.mp h with h | h
      · exact Or.inl (List.mem_cons.mpr (Or.inl h))
      · rcases ih h with h' | h'
        · exact Or.inl (List.mem_cons.mpr (Or.inr h'))
        · exact Or.inr h'

theorem mem_keys_dictUpdate_left (d src : List (String × α)) (q : String)
    (h : q ∈ d.map Prod.fst) : q ∈ (dictUpdate d src).map Prod.fst := by
  induction src generalizing d with
  | nil => exact h
  | cons hd rest ih =>
    obtain ⟨ek, ev⟩ := hd
    exact ih (dictSet d ek ev) (mem_keys_dictSet_of_mem d ek ev q h)

theorem mem_keys_dictUpdate_right (d src : List (String × α)) (q : String)
    (h : q ∈ src.map Prod.fst) : q ∈ (dictUpdate d src).map Prod.fst := by
  induction src generalizing d with
  | nil => cases h
  | cons hd rest ih =>
    obtain ⟨ek, ev⟩ := hd
    simp only [List.map_cons, List.mem_cons] at h
    by_cases hq : q = ek
    · subst hq
      exact mem_keys_dictUpdate_left (dictSet d q ev) rest q
        (mem_keys_dictSet_self d q ev)
    · rcases h with h | h
      · exact absurd h hq
      · exact ih (dictSet d ek ev) h

theorem nodup_keys_dictSet (d : List (String × α)) (k : String) (v : α)
    (hnd : (d.map Prod.fst).Nodup) : ((dictSet d k v).map Prod.fst).Nodup := by
  induction d with
  | nil => simp [dictSet]
  | cons hd rest ih =>
    obtain ⟨ek, ev⟩ := hd
    simp only [List.map_cons, List.nodup_cons] at hnd
    by_cases hek : ek = k
    · simp only [dictSet, if_pos hek, List.map_cons]
      exact List.nodup_cons.mpr ⟨hnd.1, hnd.2⟩
    · simp only [dictSet, if_neg hek, List.map_cons]
      refine List.nodup_cons.mpr ⟨fun hmem => ?_, ih hnd.2⟩
      rcases mem_keys_dictSet_cases rest k v ek hmem with h | h
      · exact hnd.1 h
      · exact hek h

theorem nodup_keys_dictUpdate (d src : List (String × α))
    (hnd : (d.map Prod.fst).Nodup) :
    ((dictUpdate d src).map Prod.fst).Nodup := by
  induction src generalizing d with
  | nil => exact hnd
  | cons hd rest ih =>
    obtain ⟨ek, ev⟩ := hd
    exact ih (dictSet d ek ev) (nodup_keys_dictSet d ek ev hnd)

end DictLemmas

theorem nodup_keys_distributionTags (trial : FrozenTrial) :
    ((distributionTags trial).map Prod.fst).Nodup :=
  nodup_keys_dictUpdate [] (distributionEntries trial) List.nodup_nil

/-- Master lookup equation for the submitted tag dict: the
distribution-derived entries win, then the user attributes, then the
reserved assignments (`lastAssoc` because `dict.update` lets a later entry
of the same source overwrite an earlier one). -/
theorem dictGet_buildTags (study : Study) (trial : FrozenTrial) (q : String) :
    dictGet (buildTags study trial) q =
      optOr (lastAssoc (distributionEntries trial) q)
        (optOr (lastAssoc trial.user_attrs q)
          (dictGet (reservedTags study trial) q)) := by
  show dictGet (dictUpdate (dictUpdate (reservedTags study trial)
      trial.user_attrs) (distributionTags trial)) q = _
  rw [dictGet_dictUpdate, dictGet_dictUpdate,
    lastAssoc_eq_dictGet_of_nodup _ _ (nodup_keys_distributionTags trial)]
  show optOr (dictGet (dictUpdate [] (distributionEntries trial)) q) _ = _
  rw [dictGet_dictUpdate]
  show optOr (optOr _ (dictGet [] q)) _ = _
  simp only [dictGet, optOr_none]

/-- The reserved assignments produce exactly this five-entry dict. -/
theorem reservedTags_eq (study : Study) (trial : FrozenTrial) :
    reservedTags study trial =
      [("number", PyVal.str (toString trial.number)),
       ("datetime_start", PyVal.str (pyStrOfOption trial.datetime_start)),
       ("datetime_complete", PyVal.str (pyStrOfOption trial.datetime_complete)),
       ("state", PyVal.str trial.state),
       ("direction", PyVal.str study.direction)] := by
  rfl

/-- Claim C2: every invocation issues its outbound calls in exactly the
fixed order — set endpoint (only if a tracking URI was configured), activate
experiment, open the run, log the metric, log the parameters, log the tags,
close the run — and, against any client (so on every fault pattern), no
logging call is ever issued outside an open run. -/
theorem claim_C2_call_order (cb : MLflowCallback) (s : Study) (t : FrozenTrial) :
    callTrace cb s t =
      (match cb.tracking_uri with
        | some uri => [MEvent.set_tracking_uri uri]
        | none => []) ++
      [MEvent.set_experiment (experimentName cb s),
       MEvent.start_run t.number,
       MEvent.log_metric "value" (metricValue t),
       MEvent.log_params t.params,
       MEvent.set_tags (buildTags s t),
       MEvent.end_run] ∧
    ∀ c : Client, wfRunScope (MLflowCallback.call c cb s t).1 false = true := by
  constructor
  · cases htu : cb.tracking_uri with
    | none => simp [callTrace, MLflowCallback.call, okClient, htu]
    | some uri => simp [callTrace, MLflowCallback.call, okClient, htu]
  · intro c
    cases htu : cb.tracking_uri with
    | none =>
      simp only [MLflowCallback.call, htu]
      rcases c.fail_set_experiment (experimentName cb s) with _ | e
      · rcases c.fail_start_run t.number with _ | e
        · rcases c.fail_log_metric "value" (metricValue t) with _ | e
          · rcases c.fail_log_params t.params with _ | e
            · rcases c.fail_set_tags (buildTags s t) with _ | e <;>
                simp [wfRunScope]
            · simp [wfRunScope]
          · simp [wfRunScope]
        · simp [wfRunScope]
      · simp [wfRunScope]
    | some uri =>
      simp only [MLflowCallback.call, htu]
      rcases c.fail_set_tracking_uri uri with _ | e
      · rcases c.fail_set_experiment (experimentName cb s) with _ | e
        · rcases c.fail_start_run t.number with _ | e
          · rcases c.fail_log_metric "value" (metricValue t) with _ | e
            · rcases c.fail_log_params t.params with _ | e
              · rcases c.fail_set_tags (buildTags s t) with _ | e <;>
                  simp [wfRunScope]
              · simp [wfRunScope]
            · simp [wfRunScope]
          · simp [wfRunScope]
        · simp [wfRunScope]
      · simp [wfRunScope]

/-- Claim C5: every invocation logs exactly one metric; when the trial's
value is `None` the logged value is the NaN sentinel (neither omitted nor
zero), and when it is present the logged value equals it. -/
theorem claim_C5_metric_value (cb : MLflowCallback) (s : Study) (t : FrozenTrial) :
    (callTrace cb s t).countP isLogMetric = 1 ∧
    (t.value = none → MEvent.log_metric "value" PFloat.nan ∈ callTrace cb s t) ∧
    (∀ v, t.value = some v → MEvent.log_metric "value" v ∈ callTrace cb s t) := by
  refine ⟨?_, ?_, ?_⟩
  · cases htu : cb.tracking_uri <;>
      simp [callTrace, MLflowCallback.call, okClient, htu, isLogMetric]
  · intro hv
    cases htu : cb.tracking_uri <;>
      simp [callTrace, MLflowCallback.call, okClient, htu, metricValue, hv]
  · intro v hv
    cases htu : cb.tracking_uri <;>
      simp [callTrace, MLflowCallback.call, okClient, htu, metricValue, hv]

/-- Witness for claim C5 at a trial with `None` value and at one with
value `1.5`. -/
theorem claim_C5_witness :
    (trialNoValue.value = none ∧
      MEvent.log_metric "value" PFloat.nan ∈ callTrace sampleCb sampleStudy trialNoValue) ∧
    (sampleTrial.value = some (PFloat.val (3 / 2)) ∧
      MEvent.log_metric "value" (PFloat.val (3 / 2)) ∈
        callTrace sampleCb sampleStudy sampleTrial) :=
  ⟨⟨rfl, (claim_C5_metric_value sampleCb sampleStudy trialNoValue).2.1 rfl⟩,
   ⟨rfl, (claim_C5_metric_value sampleCb sampleStudy sampleTrial).2.2 _ rfl⟩⟩

/-- Claim C6: the activated experiment is exactly one `set_experiment`
call, whose name is the configured experiment when one was given and
`study.study_name` otherwise; a configured name wins regardless of the
study's name. -/
theorem claim_C6_experiment (cb : MLflowCallback) (s : Study) (t : FrozenTrial) :
    (callTrace cb s t).filterMap expEventName = [experimentName cb s] ∧
    (∀ x, cb.experiment = some x → experimentName cb s = x) ∧
    (cb.experiment = none → experimentName cb s = s.study_name) := by
  refine ⟨?_, ?_, ?_⟩
  · cases htu : cb.tracking_uri <;>
      simp [callTrace, MLflowCallback.call, okClient, htu, expEventName]
  · intro x hx
    simp [experimentName, hx]
  · intro hx
    simp [experimentName, hx]

/-- Witness for claim C6: a configured experiment name `"X"` wins over the
study name, and an absent one falls back to the study name. -/
theorem claim_C6_witness :
    (expCb.experiment = some "X" ∧ experimentName expCb sampleStudy = "X") ∧
    (sampleCb.experiment = none ∧
      experimentName sampleCb sampleStudy = sampleStudy.study_name) :=
  ⟨⟨rfl, (claim_C6_experiment expCb sampleStudy sampleTrial).2.1 "X" rfl⟩,
   ⟨rfl, (claim_C6_experiment sampleCb sampleStudy sampleTrial).2.2 rfl⟩⟩

/-- Claim C1 (code bug): `__init__` accepts only the keywords
`tracking_uri` and `experiment`, so the `metric_name` keyword used by the
class's own docstring example is rejected with a `TypeError`; the metric
is always logged under the fixed literal `"value"` (there is no configured
name), and for the sample trial with value `1.5` exactly one metric event
`log_metric "value" 1.5` is issued. -/
theorem claim_C1_metric_name_missing :
    kwargsAccepted initKwargNames docstringCallKwargNames = false ∧
    (∀ cb s t, (callTrace cb s t).filterMap metricEventName = ["value"]) ∧
    (callTrace sampleCb sampleStudy sampleTrial).countP isLogMetric = 1 ∧
    MEvent.log_metric "value" (PFloat.val (3 / 2)) ∈
      callTrace sampleCb sampleStudy sampleTrial := by
  refine ⟨by decide, ?_, ?_, ?_⟩
  · intro cb s t
    cases htu : cb.tracking_uri <;>
      simp [callTrace, MLflowCallback.call, okClient, htu, metricEventName]
  · simp [callTrace, MLflowCallback.call, okClient, sampleCb, isLogMetric]
  · simp [callTrace, MLflowCallback.call, okClient, sampleCb, sampleTrial,
      metricValue]

/-- Claim C3: whenever the run has been opened, the last outbound call of
the invocation is `end_run` on every exit path, and the propagated result
is either success or exactly the error the client raised inside the run's
scope (`log_metric`, `log_params` or `set_tags`), unmodified. -/
theorem claim_C3_run_closed (c : Client) (cb : MLflowCallback) (s : Study)
    (t : FrozenTrial) (h : runOpened c cb s t = true) :
    ((MLflowCallback.call c cb s t).1.getLast? = some MEvent.end_run) ∧
    ((MLflowCallback.call c cb s t).2 = none ∨
     (MLflowCallback.call c cb s t).2 = c.fail_log_metric "value" (metricValue t) ∨
     (MLflowCallback.call c cb s t).2 = c.fail_log_params t.params ∨
     (MLflowCallback.call c cb s t).2 = c.fail_set_tags (buildTags s t)) := by
  simp only [runOpened, Bool.and_eq_true] at h
  obtain ⟨hmem, hnone⟩ := h
  have hmem' : MEvent.start_run t.number ∈ (MLflowCallback.call c cb s t).1 :=
    of_decide_eq_true hmem
  have hsr : c.fail_start_run t.number = none := Option.isNone_iff_eq_none.mp hnone
  clear hmem hnone
  cases htu : cb.tracking_uri with
  | none =>
    rcases hexp : c.fail_set_experiment (experimentName cb s) with _ | e
    · rcases hlm : c.fail_log_metric "value" (metricValue t) with _ | e
      · rcases hlp : c.fail_log_params t.params with _ | e
        · rcases hst : c.fail_set_tags (buildTags s t) with _ | e
          · exact ⟨by simp [MLflowCallback.call, htu, hexp, hsr, hlm, hlp, hst],
              by simp [MLflowCallback.call, htu, hexp, hsr, hlm, hlp, hst]⟩
          · exact ⟨by simp [MLflowCallback.call, htu, hexp, hsr, hlm, hlp, hst],
              by simp [MLflowCallback.call, htu, hexp, hsr, hlm, hlp, hst]⟩
        · exact ⟨by simp [MLflowCallback.call, htu, hexp, hsr, hlm, hlp],
            by simp [MLflowCallback.call, htu, hexp, hsr, hlm, hlp]⟩
      · exact ⟨by simp [MLflowCallback.call, htu, hexp, hsr, hlm],
          by simp [MLflowCallback.call, htu, hexp, hsr, hlm]⟩
    · simp [MLflowCallback.call, htu, hexp] at hmem'
  | some uri =>
    rcases hstu : c.fail_set_tracking_uri uri with _ | e
    · rcases hexp : c.fail_set_experiment (experimentName cb s) with _ | e
      · rcases hlm : c.fail_log_metric "value" (metricValue t) with _ | e
        · rcases hlp : c.fail_log_params t.params with _ | e
          · rcases hst : c.fail_set_tags (buildTags s t) with _ | e
            · exact ⟨by simp [MLflowCallback.call, htu, hstu, hexp, hsr, hlm, hlp, hst],
                by simp [MLflowCallback.call, htu, hstu, hexp, hsr, hlm, hlp, hst]⟩
            · exact ⟨by simp [MLflowCallback.call, htu, hstu, hexp, hsr, hlm, hlp, hst],
                by simp [MLflowCallback.call, htu, hstu, hexp, hsr, hlm, hlp, hst]⟩
          · exact ⟨by simp [MLflowCallback.call, htu, hstu, hexp, hsr, hlm, hlp],
              by simp [MLflowCallback.call, htu, hstu, hexp, hsr, hlm, hlp]⟩
        · exact ⟨by simp [MLflowCallback.call, htu, hstu, hexp, hsr, hlm],
            by simp [MLflowCallback.call, htu, hstu, hexp, hsr, hlm]⟩
      · simp [MLflowCallback.call, htu, hstu, hexp] at hmem'
    · simp [MLflowCallback.call, htu, hstu] at hmem'

/-- Witness for claim C3: against a client whose `log_params` raises a
remote-service error, the run is opened and the last outbound call is
still `end_run`. -/
theorem claim_C3_witness :
    runOpened failingClient sampleCb sampleStudy sampleTrial = true ∧
    ((MLflowCallback.call failingClient sampleCb sampleStudy sampleTrial).1.getLast?
      = some MEvent.end_run) :=
  ⟨by decide,
   (claim_C3_run_closed failingClient sampleCb sampleStudy sampleTrial (by decide)).1⟩

/-- Claim C4: construction succeeds exactly when the mlflow import
succeeded; on failure the raised error is the fixed message, which names
the remediation (`$ pip install mlflow`) and splices in the text of the
underlying import error; on success the callback stores the two configured
attributes.  The check is eager: it runs inside `init`, and the call
embedding takes no availability input at all. -/
theorem claim_C4_availability (a : Bool) (ie : String) (tu ex : Option String) :
    (initOk (MLflowCallback.init a ie tu ex) = a) ∧
    (a = false → MLflowCallback.init a ie tu ex =
      Except.error (availabilityErrorMessage ie)) ∧
    (a = true → MLflowCallback.init a ie tu ex =
      Except.ok { tracking_uri := tu, experiment := ex }) ∧
    (∃ p q, availabilityErrorMessage ie = p ++ installHint ++ q ++ ie ++ ")") := by
  refine ⟨?_, ?_, ?_, ?_⟩
  · cases a <;> rfl
  · intro ha; subst ha; rfl
  · intro ha; subst ha; rfl
  · exact ⟨"MLflow is not available. Please install MLflow to use this feature. It can be installed by executing `",
      "`. For further information, please refer to the installation guide of MLflow. (The actual import error is as follows: ",
      rfl⟩

/-- Witness for claim C4: construction fails when mlflow is unavailable,
with the full message, and succeeds when it is available. -/
theorem claim_C4_witness :
    initOk (MLflowCallback.init false "No module named mlflow" none none) = false ∧
    MLflowCallback.init false "No module named mlflow" none none =
      Except.error (availabilityErrorMessage "No module named mlflow") ∧
    initOk (MLflowCallback.init true "" (some "file:/tmp/mlruns") none) = true :=
  ⟨(claim_C4_availability false "No module named mlflow" none none).1,
   (claim_C4_availability false "No module named mlflow" none none).2.1 rfl,
   (claim_C4_availability true "" (some "file:/tmp/mlruns") none).1⟩

/-- Claim C7: under the spec's stated no-collision assumption (user
attributes and distribution-derived keys do not collide with the reserved
names) the submitted tag dict binds each reserved key to its textual
rendering; unconditionally it contains one `<k>_distribution` entry with
the textually rendered descriptor per distribution entry, and every
user-attribute key. -/
theorem claim_C7_tag_mapping (s : Study) (t : FrozenTrial)
    (hu : ∀ r ∈ reservedTagKeys, r ∉ t.user_attrs.map Prod.fst)
    (hd : ∀ r ∈ reservedTagKeys, r ∉ (distributionEntries t).map Prod.fst)
    (hnd : ((distributionEntries t).map Prod.fst).Nodup) :
    dictGet (buildTags s t) "number" = some (PyVal.str (toString t.number)) ∧
    dictGet (buildTags s t) "datetime_start" =
      some (PyVal.str (pyStrOfOption t.datetime_start)) ∧
    dictGet (buildTags s t) "datetime_complete" =
      some (PyVal.str (pyStrOfOption t.datetime_complete)) ∧
    dictGet (buildTags s t) "state" = some (PyVal.str t.state) ∧
    dictGet (buildTags s t) "direction" = some (PyVal.str s.direction) ∧
    (∀ k v, (k, v) ∈ t.distributions →
      dictGet (buildTags s t) (k ++ "_distribution") = some (PyVal.str v)) ∧
    (∀ k v, (k, v) ∈ t.user_attrs → k ∈ (buildTags s t).map Prod.fst) := by
  have key : ∀ r ∈ reservedTagKeys,
      dictGet (buildTags s t) r = dictGet (reservedTags s t) r := by
    intro r hr
    rw [dictGet_buildTags, lastAssoc_eq_none_of_not_mem _ _ (hd r hr),
      lastAssoc_eq_none_of_not_mem _ _ (hu r hr)]
    rfl
  refine ⟨?_, ?_, ?_, ?_, ?_, ?_, ?_⟩
  · rw [key "number" (by decide), reservedTags_eq]; rfl
  · rw [key "datetime_start" (by decide), reservedTags_eq]; rfl
  · rw [key "datetime_complete" (by decide), reservedTags_eq]; rfl
  · rw [key "state" (by decide), reservedTags_eq]; rfl
  · rw [key "direction" (by decide), reservedTags_eq]; rfl
  · intro k v hm
    have hmem : (k ++ "_distribution", PyVal.str v) ∈ distributionEntries t :=
      List.mem_map_of_mem _ hm
    rw [dictGet_buildTags, lastAssoc_eq_some_of_nodup _ _ _ hnd hmem]
    rfl
  · intro k v hm
    have hk : k ∈ t.user_attrs.map Prod.fst := List.mem_map_of_mem Prod.fst hm
    show k ∈ (dictUpdate (dictUpdate (reservedTags s t) t.user_attrs)
      (distributionTags t)).map Prod.fst
    exact mem_keys_dictUpdate_left _ _ _
      (mem_keys_dictUpdate_right _ _ _ hk)

/-- Witness for claim C7 at the sample trial. -/
theorem claim_C7_witness :
    dictGet (buildTags sampleStudy sampleTrial) "number" =
      some (PyVal.str (toString sampleTrial.number)) ∧
    dictGet (buildTags sampleStudy sampleTrial) ("x" ++ "_distribution") =
      some (PyVal.str "UniformDistribution(high=10, low=-10)") ∧
    "memo" ∈ (buildTags sampleStudy sampleTrial).map Prod.fst := by
  have h := claim_C7_tag_mapping sampleStudy sampleTrial (by decide) (by decide)
    (by decide)
  exact ⟨h.1, h.2.2.2.2.2.1 "x" "UniformDistribution(high=10, low=-10)" (by decide),
    h.2.2.2.2.2.2 "memo" (PyVal.str "ok") (by decide)⟩

/-- Claim C8: the tag dict has last-write-wins precedence — distribution
entries over user attributes over reserved entries; in particular a user
attribute keyed `state` replaces the reserved state tag, and a
distribution-derived key replaces a user attribute of the same name. -/
theorem claim_C8_last_write_wins (s : Study) (t : FrozenTrial)
    (hnu : (t.user_attrs.map Prod.fst).Nodup)
    (hnd : ((distributionEntries t).map Prod.fst).Nodup) :
    (∀ q, dictGet (buildTags s t) q =
      optOr (lastAssoc (distributionEntries t) q)
        (optOr (dictGet t.user_attrs q) (dictGet (reservedTags s t) q))) ∧
    (∀ v, ("state", v) ∈ t.user_attrs →
      "state" ∉ (distributionEntries t).map Prod.fst →
      dictGet (buildTags s t) "state" = some v) ∧
    (∀ k vd vu, (k, vd) ∈ t.distributions →
      (k ++ "_distribution", vu) ∈ t.user_attrs →
      dictGet (buildTags s t) (k ++ "_distribution") = some (PyVal.str vd)) := by
  refine ⟨?_, ?_, ?_⟩
  · intro q
    rw [dictGet_buildTags, lastAssoc_eq_dictGet_of_nodup _ _ hnu]
  · intro v hv hns
    rw [dictGet_buildTags, lastAssoc_eq_none_of_not_mem _ _ hns,
      lastAssoc_eq_some_of_nodup _ _ _ hnu hv]
    rfl
  · intro k vd vu hmd hmu
    have hmem : (k ++ "_distribution", PyVal.str vd) ∈ distributionEntries t :=
      List.mem_map_of_mem _ hmd
    rw [dictGet_buildTags, lastAssoc_eq_some_of_nodup _ _ _ hnd hmem]
    rfl

/-- Witness for claim C8 at a trial whose user attributes collide with the
reserved key `state` and with the distribution-derived key
`x_distribution`. -/
theorem claim_C8_witness :
    dictGet (buildTags sampleStudy collisionTrial) "state" =
      some (PyVal.str "custom") ∧
    dictGet (buildTags sampleStudy collisionTrial) ("x" ++ "_distribution") =
      some (PyVal.str "CategoricalDistribution(choices=(1, 2))") := by
  have h := claim_C8_last_write_wins sampleStudy collisionTrial (by decide)
    (by decide)
  exact ⟨h.2.1 (PyVal.str "custom") (by decide) (by decide),
    h.2.2 "x" "CategoricalDistribution(choices=(1, 2))" (PyVal.obj 0) (by decide)
      (by decide)⟩

/-- Claim C9: an invocation leaves the callback object, the study and the
trial exactly as they were (only the client's ambient state changes), and
the callback carries no per-instance state beyond its two configuration
attributes: two callbacks are equal exactly when those attributes are. -/
theorem claim_C9_frame (c : Client) (w : World) :
    ((callStep c w).1.cb = w.cb ∧ (callStep c w).1.study = w.study ∧
      (callStep c w).1.trial = w.trial) ∧
    (∀ cb1 cb2 : MLflowCallback,
      cb1 = cb2 ↔
        (cb1.tracking_uri = cb2.tracking_uri ∧ cb1.experiment = cb2.experiment)) := by
  refine ⟨⟨rfl, rfl, rfl⟩, fun cb1 cb2 => ?_⟩
  constructor
  · intro h
    exact ⟨congrArg MLflowCallback.tracking_uri h,
      congrArg MLflowCallback.experiment h⟩
  · intro h
    obtain ⟨h1, h2⟩ := h
    cases cb1
    cases cb2
    simp_all

/-- Claim C10: the invocation is deterministic — callbacks with equal
configuration issue, against any client, identical call sequences on equal
inputs — with the run opened under the raw trial number as its display
name while the `number` tag is assigned its textual rendering. -/
theorem claim_C10_deterministic (cb1 cb2 : MLflowCallback) (s : Study)
    (t : FrozenTrial) (h1 : cb1.tracking_uri = cb2.tracking_uri)
    (h2 : cb1.experiment = cb2.experiment) :
    (∀ c : Client, MLflowCallback.call c cb1 s t = MLflowCallback.call c cb2 s t) ∧
    MEvent.start_run t.number ∈ callTrace cb1 s t ∧
    dictGet (reservedTags s t) "number" = some (PyVal.str (toString t.number)) := by
  have hcb : cb1 = cb2 := by
    cases cb1
    cases cb2
    simp_all
  subst hcb
  refine ⟨fun c => rfl, ?_, ?_⟩
  · cases htu : cb1.tracking_uri <;>
      simp [callTrace, MLflowCallback.call, okClient, htu]
  · rw [reservedTags_eq]
    rfl

/-- Witness for claim C10 at the sample configuration and trial. -/
theorem claim_C10_witness :
    MEvent.start_run sampleTrial.number ∈ callTrace sampleCb sampleStudy sampleTrial ∧
    dictGet (reservedTags sampleStudy sampleTrial) "number" =
      some (PyVal.str (toString sampleTrial.number)) :=
  ⟨(claim_C10_deterministic sampleCb sampleCb sampleStudy sampleTrial rfl rfl).2.1,
   (claim_C10_deterministic sampleCb sampleCb sampleStudy sampleTrial rfl rfl).2.2⟩
